import Mathlib

/-!
Verification of the iree-torch driver scripts.

This file gives a shallow embedding of the two Python source files
(`torchdynamo_poc/torchbench.py` and `torchscript_e2e_main.py`) and proves
properties of the embedded definitions.

Modelling conventions:
* A `torch.fx` node argument is either a bare value (a node reference or other
  immediate, abstracted as a `Nat` identifier) or a Python tuple of arguments.
* Python in-place mutation is modelled by explicit state passing: a function
  that mutates its argument and returns a value is embedded as a function
  returning the post-call state of the argument together with the return value.
* A Python `assert` failure is modelled as the `Except.error` case.
* Calls into the external compiler/runtime libraries (torch.jit, torch_mlir,
  iree) are opaque to this repository; they are abstracted as function
  parameters, with the spec-stated contract assumed as a hypothesis where a
  theorem needs it.
-/

namespace IreeTorch

/-- An argument of a `torch.fx` node: either a bare value (abstracted by an
identifier) or a Python tuple of arguments. -/
inductive FxArg where
  | bare (v : Nat)
  | tup (elems : List FxArg)
deriving Repr

/-- A `torch.fx` graph node: its opcode string and its top-level argument
tuple `node.args` (modelled as a list). -/
structure FxNode where
  op : String
  args : List FxArg
deriving Repr

/-- A `torch.fx.GraphModule`: its list of graph nodes, plus counters recording
how many times `graph.lint()` and `recompile()` have been called on it (these
model the observable re-validation/recompilation side effects). -/
structure GraphModule where
  nodes : List FxNode
  linted : Nat
  recompiled : Nat
deriving Repr

/-- The body of the `for node in fx_g.graph.nodes` loop of
`_unwrap_single_tuple_return` (torchbench.py lines 33-43), processing the
remaining nodes.  Returns the post-loop state of the node list, the
`unwrapped_tuple` flag, and whether the loop exited early via `return None`
(in which case the remaining nodes are left untouched).  The `assert
len(node.args) == 1` is the `Except.error` case. -/
def unwrapNodes : List FxNode → Except String (List FxNode × Bool × Bool)
  | [] => Except.ok ([], false, false)
  | n :: rest =>
    if n.op = "output" then
      match n.args with
      | [arg] =>
        match arg with
        | FxArg.tup [v] =>
          (unwrapNodes rest).map fun r => ({ n with args := [v] } :: r.1, true, r.2.2)
        | FxArg.tup _ =>
          Except.ok (n :: rest, false, true)
        | FxArg.bare _ =>
          (unwrapNodes rest).map fun r => (n :: r.1, r.2.1, r.2.2)
      | _ => Except.error "Output node must have a single argument"
    else
      (unwrapNodes rest).map fun r => (n :: r.1, r.2.1, r.2.2)

/-- Embedding of `_unwrap_single_tuple_return` (torchbench.py lines 31-50).
The Python function mutates `fx_g` in place and returns either `None` (no
rewrite) or `fx_g` itself; here it returns the post-call state of the input
graph paired with the returned value.  On a successful rewrite the graph is
linted and recompiled and the very same (mutated) graph is returned. -/
def _unwrap_single_tuple_return (fx_g : GraphModule) :
    Except String (GraphModule × Option GraphModule) :=
  match unwrapNodes fx_g.nodes with
  | Except.error e => Except.error e
  | Except.ok (nodes2, unwrapped_tuple, early) =>
    if early then
      Except.ok ({ fx_g with nodes := nodes2 }, none)
    else if unwrapped_tuple then
      let g2 : GraphModule :=
        { nodes := nodes2, linted := fx_g.linted + 1, recompiled := fx_g.recompiled + 1 }
      Except.ok (g2, some g2)
    else
      Except.ok ({ fx_g with nodes := nodes2 }, none)

example :
    _unwrap_single_tuple_return ⟨[⟨"output", [FxArg.tup [FxArg.bare 5]]⟩], 0, 0⟩ =
      Except.ok (⟨[⟨"output", [FxArg.bare 5]⟩], 1, 1⟩,
        some ⟨[⟨"output", [FxArg.bare 5]⟩], 1, 1⟩) := rfl

example :
    _unwrap_single_tuple_return ⟨[⟨"output", [FxArg.tup [FxArg.bare 5, FxArg.bare 6]]⟩], 0, 0⟩ =
      Except.ok (⟨[⟨"output", [FxArg.tup [FxArg.bare 5, FxArg.bare 6]]⟩], 0, 0⟩, none) := rfl

example :
    _unwrap_single_tuple_return ⟨[⟨"output", [FxArg.bare 5]⟩], 0, 0⟩ =
      Except.ok (⟨[⟨"output", [FxArg.bare 5]⟩], 0, 0⟩, none) := rfl

example :
    _unwrap_single_tuple_return ⟨[⟨"output", [FxArg.bare 5, FxArg.bare 6]⟩], 0, 0⟩ =
      Except.error "Output node must have a single argument" := rfl

/-- A list of nodes containing no output node is traversed without change. -/
theorem unwrapNodes_no_output (l : List FxNode) (h : ∀ m ∈ l, m.op ≠ "output") :
    unwrapNodes l = Except.ok (l, false, false) := by
  induction l with
  | nil => rfl
  | cons n rest ih =>
    have hn : ¬ n.op = "output" := h n (List.mem_cons_self n rest)
    have hr := ih (fun m hm => h m (List.mem_cons_of_mem n hm))
    simp [unwrapNodes, hn, hr, Except.map]

/-- Splitting the traversal at a prefix containing no output node. -/
theorem unwrapNodes_append (pre rest : List FxNode) (h : ∀ m ∈ pre, m.op ≠ "output") :
    unwrapNodes (pre ++ rest) =
      (unwrapNodes rest).map fun r => (pre ++ r.1, r.2.1, r.2.2) := by
  induction pre with
  | nil =>
    cases hr : unwrapNodes rest with
    | error e => simp [hr, Except.map]
    | ok r => simp [hr, Except.map]
  | cons n pre2 ih =>
    have hn : ¬ n.op = "output" := h n (List.mem_cons_self n pre2)
    have ih2 := ih (fun m hm => h m (List.mem_cons_of_mem n hm))
    cases hr : unwrapNodes rest with
    | error e => simp [unwrapNodes, hn, ih2, hr, Except.map]
    | ok r => simp [unwrapNodes, hn, ih2, hr, Except.map]

/-- Traversal of a graph whose single output node carries a one-element tuple:
the tuple is replaced by its element and the flag is set. -/
theorem unwrapNodes_output_tup1 (pre post : List FxNode) (v : FxArg)
    (hpre : ∀ m ∈ pre, m.op ≠ "output") (hpost : ∀ m ∈ post, m.op ≠ "output") :
    unwrapNodes (pre ++ FxNode.mk "output" [FxArg.tup [v]] :: post) =
      Except.ok (pre ++ FxNode.mk "output" [v] :: post, true, false) := by
  rw [unwrapNodes_append pre _ hpre]
  simp [unwrapNodes, unwrapNodes_no_output post hpost, Except.map]

/-- Traversal of a graph whose single output node carries a tuple that does not
have exactly one element: the loop exits early, leaving everything untouched. -/
theorem unwrapNodes_output_tupN (pre post : List FxNode) (vs : List FxArg)
    (hpre : ∀ m ∈ pre, m.op ≠ "output") (hlen : vs.length ≠ 1) :
    unwrapNodes (pre ++ FxNode.mk "output" [FxArg.tup vs] :: post) =
      Except.ok (pre ++ FxNode.mk "output" [FxArg.tup vs] :: post, false, true) := by
  rw [unwrapNodes_append pre _ hpre]
  cases vs with
  | nil => simp [unwrapNodes, Except.map]
  | cons x vs2 =>
    cases vs2 with
    | nil => exact absurd rfl hlen
    | cons y vs3 => simp [unwrapNodes, Except.map]

/-- Traversal of a graph whose single output node carries a bare value: no
change, no flag. -/
theorem unwrapNodes_output_bare (pre post : List FxNode) (x : Nat)
    (hpre : ∀ m ∈ pre, m.op ≠ "output") (hpost : ∀ m ∈ post, m.op ≠ "output") :
    unwrapNodes (pre ++ FxNode.mk "output" [FxArg.bare x] :: post) =
      Except.ok (pre ++ FxNode.mk "output" [FxArg.bare x] :: post, false, false) := by
  rw [unwrapNodes_append pre _ hpre]
  simp [unwrapNodes, unwrapNodes_no_output post hpost, Except.map]

/-- Traversal hits the arity assertion on an output node with two or more
top-level arguments. -/
theorem unwrapNodes_output_multiarg (pre post : List FxNode) (a b : FxArg)
    (rest2 : List FxArg) (hpre : ∀ m ∈ pre, m.op ≠ "output") :
    unwrapNodes (pre ++ FxNode.mk "output" (a :: b :: rest2) :: post) =
      Except.error "Output node must have a single argument" := by
  rw [unwrapNodes_append pre _ hpre]
  simp [unwrapNodes, Except.map]

/-- Computation of the normalizer on a graph whose single output node carries a
one-element tuple: the mutated graph is linted, recompiled and returned. -/
theorem unwrap_tup1_eq (g : GraphModule) (pre post : List FxNode) (v : FxArg)
    (hg : g.nodes = pre ++ FxNode.mk "output" [FxArg.tup [v]] :: post)
    (hpre : ∀ m ∈ pre, m.op ≠ "output") (hpost : ∀ m ∈ post, m.op ≠ "output") :
    _unwrap_single_tuple_return g =
      Except.ok
        (GraphModule.mk (pre ++ FxNode.mk "output" [v] :: post) (g.linted + 1) (g.recompiled + 1),
          some (GraphModule.mk (pre ++ FxNode.mk "output" [v] :: post) (g.linted + 1)
            (g.recompiled + 1))) := by
  unfold _unwrap_single_tuple_return
  rw [hg, unwrapNodes_output_tup1 pre post v hpre hpost]
  rfl

/-- Computation of the normalizer on a graph whose single output node carries a
tuple without exactly one element: the sentinel, with the graph untouched. -/
theorem unwrap_tupN_eq (g : GraphModule) (pre post : List FxNode) (vs : List FxArg)
    (hg : g.nodes = pre ++ FxNode.mk "output" [FxArg.tup vs] :: post)
    (hpre : ∀ m ∈ pre, m.op ≠ "output") (hlen : vs.length ≠ 1) :
    _unwrap_single_tuple_return g = Except.ok (g, none) := by
  unfold _unwrap_single_tuple_return
  rw [hg, unwrapNodes_output_tupN pre post vs hpre hlen, ← hg]
  rfl

/-- Computation of the normalizer on a graph whose single output node carries a
bare value: the sentinel, with the graph untouched. -/
theorem unwrap_bare_eq (g : GraphModule) (pre post : List FxNode) (x : Nat)
    (hg : g.nodes = pre ++ FxNode.mk "output" [FxArg.bare x] :: post)
    (hpre : ∀ m ∈ pre, m.op ≠ "output") (hpost : ∀ m ∈ post, m.op ≠ "output") :
    _unwrap_single_tuple_return g = Except.ok (g, none) := by
  unfold _unwrap_single_tuple_return
  rw [hg, unwrapNodes_output_bare pre post x hpre hpost, ← hg]
  rfl

/-- C2: for every graph whose output node's argument is a single-element group
(one-element tuple), the normalizer returns a rewritten graph (a non-sentinel,
`some` result, i.e. unwrapped = true), and the rewritten graph's output
argument equals the sole element of the original group. -/
theorem unwrap_single_tuple_rewrites (g : GraphModule) (pre post : List FxNode) (v : FxArg)
    (hg : g.nodes = pre ++ FxNode.mk "output" [FxArg.tup [v]] :: post)
    (hpre : ∀ m ∈ pre, m.op ≠ "output") (hpost : ∀ m ∈ post, m.op ≠ "output") :
    _unwrap_single_tuple_return g =
      Except.ok
        (GraphModule.mk (pre ++ FxNode.mk "output" [v] :: post) (g.linted + 1) (g.recompiled + 1),
          some (GraphModule.mk (pre ++ FxNode.mk "output" [v] :: post) (g.linted + 1)
            (g.recompiled + 1))) :=
  unwrap_tup1_eq g pre post v hg hpre hpost

/-- Witness for C2 at a concrete one-node graph. -/
theorem unwrap_single_tuple_rewrites_witness :
    _unwrap_single_tuple_return
        (GraphModule.mk [FxNode.mk "output" [FxArg.tup [FxArg.bare 5]]] 0 0) =
      Except.ok (GraphModule.mk [FxNode.mk "output" [FxArg.bare 5]] 1 1,
        some (GraphModule.mk [FxNode.mk "output" [FxArg.bare 5]] 1 1)) :=
  unwrap_single_tuple_rewrites _ [] [] (FxArg.bare 5) rfl (by simp) (by simp)

/-- C3: for every graph whose output node's argument is a group of two or more
elements, the normalizer returns the not-applicable sentinel `none` and the
graph is returned unchanged: no node argument is modified and the lint and
recompile counters are untouched. -/
theorem unwrap_multi_tuple_no_rewrite (g : GraphModule) (pre post : List FxNode)
    (vs : List FxArg)
    (hg : g.nodes = pre ++ FxNode.mk "output" [FxArg.tup vs] :: post)
    (hpre : ∀ m ∈ pre, m.op ≠ "output") (hlen : 2 ≤ vs.length) :
    _unwrap_single_tuple_return g = Except.ok (g, none) :=
  unwrap_tupN_eq g pre post vs hg hpre (by omega)

/-- Witness for C3 at a concrete one-node graph with a two-element group. -/
theorem unwrap_multi_tuple_no_rewrite_witness :
    _unwrap_single_tuple_return
        (GraphModule.mk [FxNode.mk "output" [FxArg.tup [FxArg.bare 5, FxArg.bare 6]]] 0 0) =
      Except.ok
        (GraphModule.mk [FxNode.mk "output" [FxArg.tup [FxArg.bare 5, FxArg.bare 6]]] 0 0,
          none) :=
  unwrap_multi_tuple_no_rewrite _ [] [] [FxArg.bare 5, FxArg.bare 6] rfl (by simp) (by decide)

/-- A graph whose output argument is a one-element tuple whose sole element is
itself a one-element tuple. -/
def nestedTupleGraph : GraphModule :=
  GraphModule.mk [FxNode.mk "output" [FxArg.tup [FxArg.tup [FxArg.bare 0]]]] 0 0

/-- `nestedTupleGraph` after one application of the normalizer. -/
def nestedTupleGraph1 : GraphModule :=
  GraphModule.mk [FxNode.mk "output" [FxArg.tup [FxArg.bare 0]]] 1 1

/-- `nestedTupleGraph` after two applications of the normalizer. -/
def nestedTupleGraph2 : GraphModule :=
  GraphModule.mk [FxNode.mk "output" [FxArg.bare 0]] 2 2

/-- C4 counterexample: normalization is not idempotent.  On a graph whose
output argument is the one-element group `((x,),)`, the first application
rewrites and returns a graph whose output argument is the one-element group
`(x,)`; applying the normalizer to that rewritten graph performs a second
rewrite (a `some` result), instead of being a no-op reported as not applicable
(`none`). -/
theorem unwrap_not_idempotent_cex :
    _unwrap_single_tuple_return nestedTupleGraph =
      Except.ok (nestedTupleGraph1, some nestedTupleGraph1) ∧
    _unwrap_single_tuple_return nestedTupleGraph1 =
      Except.ok (nestedTupleGraph2, some nestedTupleGraph2) :=
  ⟨rfl, rfl⟩

/-- C4 amended: (1) for every graph whose output argument is already a bare
value the normalizer reports no rewrite and leaves the graph unchanged; and
(2) re-applying the normalizer to the graph produced by a successful
normalization is a no-op reported as not applicable, provided the sole element
of the unwrapped group was not itself a one-element group. -/
theorem unwrap_idempotent_amended :
    (∀ (g : GraphModule) (pre post : List FxNode) (x : Nat),
        g.nodes = pre ++ FxNode.mk "output" [FxArg.bare x] :: post →
        (∀ m ∈ pre, m.op ≠ "output") → (∀ m ∈ post, m.op ≠ "output") →
        _unwrap_single_tuple_return g = Except.ok (g, none)) ∧
    (∀ (g : GraphModule) (pre post : List FxNode) (v : FxArg),
        g.nodes = pre ++ FxNode.mk "output" [FxArg.tup [v]] :: post →
        (∀ m ∈ pre, m.op ≠ "output") → (∀ m ∈ post, m.op ≠ "output") →
        (∀ w : FxArg, v ≠ FxArg.tup [w]) →
        ∀ g2 r, _unwrap_single_tuple_return g = Except.ok (g2, some r) →
          _unwrap_single_tuple_return r = Except.ok (r, none)) := by
  constructor
  · intro g pre post x hg hpre hpost
    exact unwrap_bare_eq g pre post x hg hpre hpost
  · intro g pre post v hg hpre hpost hv g2 r hr
    rw [unwrap_tup1_eq g pre post v hg hpre hpost] at hr
    simp only [Except.ok.injEq, Prod.mk.injEq, Option.some.injEq] at hr
    obtain ⟨-, hr2⟩ := hr
    subst hr2
    cases v with
    | bare y => exact unwrap_bare_eq _ pre post y rfl hpre hpost
    | tup vs =>
      have hlen : vs.length ≠ 1 := by
        cases vs with
        | nil => simp
        | cons w ws =>
          cases ws with
          | nil => exact absurd rfl (hv w)
          | cons w2 ws2 => simp
      exact unwrap_tupN_eq _ pre post vs rfl hpre hlen

/-- Witness for the amended C4: part (1) on a one-node bare-output graph, and
part (2) on a one-node graph whose output group holds a bare value. -/
theorem unwrap_idempotent_amended_witness :
    _unwrap_single_tuple_return (GraphModule.mk [FxNode.mk "output" [FxArg.bare 3]] 0 0) =
      Except.ok (GraphModule.mk [FxNode.mk "output" [FxArg.bare 3]] 0 0, none) ∧
    _unwrap_single_tuple_return (GraphModule.mk [FxNode.mk "output" [FxArg.bare 5]] 1 1) =
      Except.ok (GraphModule.mk [FxNode.mk "output" [FxArg.bare 5]] 1 1, none) :=
  ⟨unwrap_idempotent_amended.1 _ [] [] 3 rfl (by simp) (by simp),
    unwrap_idempotent_amended.2
      (GraphModule.mk [FxNode.mk "output" [FxArg.tup [FxArg.bare 5]]] 0 0) [] []
      (FxArg.bare 5) rfl (by simp) (by simp) (fun w h => by cases h)
      (GraphModule.mk [FxNode.mk "output" [FxArg.bare 5]] 1 1)
      (GraphModule.mk [FxNode.mk "output" [FxArg.bare 5]] 1 1) rfl⟩

/-- Under the contract that every output node has exactly one top-level
argument, the loop can never hit the assertion. -/
theorem unwrapNodes_ok_of_arity (l : List FxNode)
    (h : ∀ m ∈ l, m.op = "output" → m.args.length = 1) :
    ∃ r, unwrapNodes l = Except.ok r := by
  induction l with
  | nil => exact ⟨_, rfl⟩
  | cons n rest ih =>
    obtain ⟨r, hr⟩ := ih (fun m hm hop => h m (List.mem_cons_of_mem n hm) hop)
    by_cases hop : n.op = "output"
    · have hlen : n.args.length = 1 := h n (List.mem_cons_self n rest) hop
      cases hargs : n.args with
      | nil => rw [hargs] at hlen; simp at hlen
      | cons a args2 =>
        cases args2 with
        | nil =>
          cases a with
          | bare x =>
            refine ⟨(n :: r.1, r.2.1, r.2.2), ?_⟩
            simp [unwrapNodes, hop, hargs, hr, Except.map]
          | tup vs =>
            cases vs with
            | nil =>
              refine ⟨(n :: rest, false, true), ?_⟩
              simp [unwrapNodes, hop, hargs, Except.map]
            | cons w ws =>
              cases ws with
              | nil =>
                refine ⟨({ n with args := [w] } :: r.1, true, r.2.2), ?_⟩
                simp [unwrapNodes, hop, hargs, hr, Except.map]
              | cons w2 ws2 =>
                refine ⟨(n :: rest, false, true), ?_⟩
                simp [unwrapNodes, hop, hargs, Except.map]
        | cons b args3 => rw [hargs] at hlen; simp at hlen
    · refine ⟨(n :: r.1, r.2.1, r.2.2), ?_⟩
      simp [unwrapNodes, hop, hr, Except.map]

/-- C5: (1) for every graph whose single output node has two or more top-level
arguments, the normalizer fails with the arity assertion instead of returning
a result; (2) under the precondition that every output node carries exactly
one top-level argument, the failure branch is unreachable: the normalizer
always returns a result. -/
theorem output_arity_assertion :
    (∀ (g : GraphModule) (pre post : List FxNode) (a b : FxArg) (rest2 : List FxArg),
        g.nodes = pre ++ FxNode.mk "output" (a :: b :: rest2) :: post →
        (∀ m ∈ pre, m.op ≠ "output") →
        _unwrap_single_tuple_return g =
          Except.error "Output node must have a single argument") ∧
    (∀ g : GraphModule, (∀ m ∈ g.nodes, m.op = "output" → m.args.length = 1) →
        ∃ p, _unwrap_single_tuple_return g = Except.ok p) := by
  constructor
  · intro g pre post a b rest2 hg hpre
    unfold _unwrap_single_tuple_return
    rw [hg, unwrapNodes_output_multiarg pre post a b rest2 hpre]
  · intro g hg
    obtain ⟨⟨nodes2, u, e⟩, hr⟩ := unwrapNodes_ok_of_arity g.nodes hg
    unfold _unwrap_single_tuple_return
    rw [hr]
    cases e <;> cases u <;> exact ⟨_, rfl⟩

/-- Witness for C5 at a concrete graph whose output node has two arguments. -/
theorem output_arity_assertion_witness :
    _unwrap_single_tuple_return
        (GraphModule.mk [FxNode.mk "output" [FxArg.bare 1, FxArg.bare 2]] 0 0) =
      Except.error "Output node must have a single argument" :=
  output_arity_assertion.1 _ [] [] (FxArg.bare 1) (FxArg.bare 2) [] rfl (by simp)

/-- C10: when the normalizer performs a rewrite, the graph it returns is the
very same post-call state of the graph it was given, mutated in place: the
output node's argument is overwritten with the group's sole element and the
graph is re-linted and recompiled, so the caller's original graph value is not
preserved. -/
theorem unwrap_mutates_in_place (g : GraphModule) (pre post : List FxNode) (v : FxArg)
    (hg : g.nodes = pre ++ FxNode.mk "output" [FxArg.tup [v]] :: post)
    (hpre : ∀ m ∈ pre, m.op ≠ "output") (hpost : ∀ m ∈ post, m.op ≠ "output") :
    _unwrap_single_tuple_return g =
      Except.ok
        (GraphModule.mk (pre ++ FxNode.mk "output" [v] :: post) (g.linted + 1) (g.recompiled + 1),
          some (GraphModule.mk (pre ++ FxNode.mk "output" [v] :: post) (g.linted + 1)
            (g.recompiled + 1))) ∧
    GraphModule.mk (pre ++ FxNode.mk "output" [v] :: post) (g.linted + 1) (g.recompiled + 1) ≠
      g := by
  refine ⟨unwrap_tup1_eq g pre post v hg hpre hpost, fun hcontra => ?_⟩
  have hlin : g.linted + 1 = g.linted := congrArg GraphModule.linted hcontra
  omega

/-- Witness for C10 at a concrete one-node graph. -/
theorem unwrap_mutates_in_place_witness :
    (_unwrap_single_tuple_return
        (GraphModule.mk [FxNode.mk "output" [FxArg.tup [FxArg.bare 7]]] 4 4) =
      Except.ok (GraphModule.mk [FxNode.mk "output" [FxArg.bare 7]] 5 5,
        some (GraphModule.mk [FxNode.mk "output" [FxArg.bare 7]] 5 5))) ∧
    GraphModule.mk [FxNode.mk "output" [FxArg.bare 7]] 5 5 ≠
      GraphModule.mk [FxNode.mk "output" [FxArg.tup [FxArg.bare 7]]] 4 4 :=
  unwrap_mutates_in_place _ [] [] (FxArg.bare 7) rfl (by simp) (by simp)

/-- A runtime result value: either a bare value (a single tensor, abstracted
by an identifier) or a Python tuple of result values. -/
inductive RValue where
  | bare (v : Nat)
  | tup (elems : List RValue)
deriving Repr

/-- The group-or-bare shape of a value: bare, or a group with its size. -/
inductive Shape where
  | bare
  | group (n : Nat)
deriving DecidableEq, Repr

/-- The group-or-bare shape of a graph output argument. -/
def argShape : FxArg → Shape
  | FxArg.bare _ => Shape.bare
  | FxArg.tup vs => Shape.group vs.length

/-- The group-or-bare shape of a runtime result value. -/
def rShape : RValue → Shape
  | RValue.bare _ => Shape.bare
  | RValue.tup vs => Shape.group vs.length

/-- The output argument of the graph that is handed on to the external
compilation pipeline: the normalizer replaces a one-element tuple by its sole
element and leaves every other output argument as it is. -/
def normalizedArg : FxArg → FxArg
  | FxArg.tup [v] => v
  | a => a

/-- Embedding of `torch_mlir_compiler` (torchbench.py lines 53-71).  The
external stages (torch.jit scripting or tracing, torch_mlir lowering, IREE
compilation and loading) are opaque to this repository; their composite
behavior, `loaded_module.forward`, is abstracted as the function parameter
`loaded_forward`, returning `none` when the loaded artifact returns no value.
The adapter normalizes the graph, remembers whether unwrapping occurred, and
returns the `forward` closure of lines 66-69: the raw result, with an empty
tuple substituted for a missing value, re-wrapped into a one-element tuple
exactly when unwrapping occurred. -/
def torch_mlir_compiler (fx_graph : GraphModule) (_use_tracing : Bool)
    (loaded_forward : List RValue → Option RValue) :
    Except String (List RValue → RValue) :=
  match _unwrap_single_tuple_return fx_graph with
  | Except.error e => Except.error e
  | Except.ok (_, fx_graph_unwrapped) =>
    let was_unwrapped := fx_graph_unwrapped.isSome
    Except.ok fun inputs =>
      let result :=
        match loaded_forward inputs with
        | none => RValue.tup []
        | some r => r
      if was_unwrapped then RValue.tup [result] else result

/-- C1: round-trip shape restoration.  For a graph with a single output node
of argument `a`, compiled through the adapter against a loaded artifact that
is faithful to the normalized graph (its results have the normalized output's
shape, and it returns no value only when that shape is the empty group), the
compile succeeds and the forward function's results have the group-or-bare
shape of the original, pre-normalization graph: a bare result is re-wrapped
into a one-element group when unwrapping occurred, and a missing result is
replaced by an empty group. -/
theorem compiled_forward_shape (g : GraphModule) (pre post : List FxNode) (a : FxArg)
    (tr : Bool) (loaded_forward : List RValue → Option RValue)
    (hg : g.nodes = pre ++ FxNode.mk "output" [a] :: post)
    (hpre : ∀ m ∈ pre, m.op ≠ "output") (hpost : ∀ m ∈ post, m.op ≠ "output")
    (hsome : ∀ inputs r, loaded_forward inputs = some r → rShape r = argShape (normalizedArg a))
    (hnone : ∀ inputs, loaded_forward inputs = none → argShape (normalizedArg a) = Shape.group 0) :
    ∀ inputs,
      (torch_mlir_compiler g tr loaded_forward).map (fun fwd => rShape (fwd inputs)) =
        Except.ok (argShape a) := by
  intro inputs
  cases a with
  | tup vs =>
    cases vs with
    | nil =>
      unfold torch_mlir_compiler
      rw [unwrap_tupN_eq g pre post [] hg hpre (by simp)]
      cases hlf : loaded_forward inputs with
      | none => simp [Except.map, rShape, argShape, hlf]
      | some r =>
        have := hsome inputs r hlf
        simp only [normalizedArg, argShape] at this
        simp [Except.map, hlf, this, argShape]
    | cons x vs2 =>
      cases vs2 with
      | nil =>
        unfold torch_mlir_compiler
        rw [unwrap_tup1_eq g pre post x hg hpre hpost]
        simp [Except.map, rShape, argShape]
      | cons y vs3 =>
        unfold torch_mlir_compiler
        rw [unwrap_tupN_eq g pre post (x :: y :: vs3) hg hpre (by simp)]
        cases hlf : loaded_forward inputs with
        | none =>
          have := hnone inputs hlf
          simp only [normalizedArg, argShape] at this
          simp at this
        | some r =>
          have := hsome inputs r hlf
          simp only [normalizedArg] at this
          simp [Except.map, hlf, this]
  | bare x =>
    unfold torch_mlir_compiler
    rw [unwrap_bare_eq g pre post x hg hpre hpost]
    cases hlf : loaded_forward inputs with
    | none =>
      have := hnone inputs hlf
      simp only [normalizedArg, argShape] at this
      simp at this
    | some r =>
      have := hsome inputs r hlf
      simp only [normalizedArg] at this
      simp [Except.map, hlf, this]

/-- Witness for C1 at a concrete one-node graph with a one-element group
output and an artifact returning a bare value. -/
theorem compiled_forward_shape_witness :
    (torch_mlir_compiler (GraphModule.mk [FxNode.mk "output" [FxArg.tup [FxArg.bare 0]]] 0 0)
        false (fun _ => some (RValue.bare 7))).map (fun fwd => rShape (fwd [])) =
      Except.ok (argShape (FxArg.tup [FxArg.bare 0])) :=
  compiled_forward_shape _ [] [] (FxArg.tup [FxArg.bare 0]) false (fun _ => some (RValue.bare 7))
    rfl (by simp) (by simp) (fun inputs r hr => by cases hr; rfl) (fun inputs h => by cases h) []

/-- A Python value as seen by `recursively_convert_to_numpy`
(torchscript_e2e_main.py lines 57-73): a runtime-native device array, a
portable numpy array, a tuple, a list, a dict (keys modelled as strings, in
insertion order), a string, a float (abstracted by an identifier; no
arithmetic is performed on it), an integer, or a value of any other,
unrecognized type. -/
inductive PyValue where
  | deviceArray (id : Nat)
  | npArray (id : Nat)
  | tup (elems : List PyValue)
  | list (elems : List PyValue)
  | dict (entries : List (String × PyValue))
  | str (s : String)
  | float (id : Nat)
  | int (n : Int)
  | other (id : Nat)
deriving Repr

mutual

/-- Embedding of `recursively_convert_to_numpy` (torchscript_e2e_main.py lines
57-73).  A device array becomes the numpy array with the same contents;
tuples, lists and dicts are converted elementwise (left to right, as the
Python comprehensions do, so the first failing element raises); strings,
floats and integers pass through; anything else — including an already
portable numpy array, which none of the `isinstance` checks accepts — raises
`Exception`, modelled as `Except.error`. -/
def recursively_convert_to_numpy : PyValue → Except String PyValue
  | PyValue.deviceArray i => Except.ok (PyValue.npArray i)
  | PyValue.tup xs => (convertElems xs).map PyValue.tup
  | PyValue.list xs => (convertElems xs).map PyValue.list
  | PyValue.dict kvs => (convertEntries kvs).map PyValue.dict
  | PyValue.str s => Except.ok (PyValue.str s)
  | PyValue.float i => Except.ok (PyValue.float i)
  | PyValue.int n => Except.ok (PyValue.int n)
  | PyValue.npArray _ => Except.error "Unexpected Python type"
  | PyValue.other _ => Except.error "Unexpected Python type"

/-- Elementwise conversion of the members of a tuple or list, left to right. -/
def convertElems : List PyValue → Except String (List PyValue)
  | [] => Except.ok []
  | x :: xs => do
    let y ← recursively_convert_to_numpy x
    let ys ← convertElems xs
    pure (y :: ys)

/-- Elementwise conversion of the values of a dict, left to right. -/
def convertEntries : List (String × PyValue) → Except String (List (String × PyValue))
  | [] => Except.ok []
  | (k, v) :: kvs => do
    let w ← recursively_convert_to_numpy v
    let ws ← convertEntries kvs
    pure ((k, w) :: ws)

end

mutual

/-- Whether every leaf of a value is of a type recognized by the conversion:
device arrays, strings, floats and integers, nested in tuples, lists and
dicts. -/
def recognized : PyValue → Bool
  | PyValue.deviceArray _ => true
  | PyValue.tup xs => recognizedElems xs
  | PyValue.list xs => recognizedElems xs
  | PyValue.dict kvs => recognizedEntries kvs
  | PyValue.str _ => true
  | PyValue.float _ => true
  | PyValue.int _ => true
  | PyValue.npArray _ => false
  | PyValue.other _ => false

/-- `recognized` on the members of a tuple or list. -/
def recognizedElems : List PyValue → Bool
  | [] => true
  | x :: xs => recognized x && recognizedElems xs

/-- `recognized` on the values of a dict. -/
def recognizedEntries : List (String × PyValue) → Bool
  | [] => true
  | (_, v) :: kvs => recognized v && recognizedEntries kvs

end

mutual

/-- The conversion described by the spec: replace every device-array leaf by
the portable numpy array with the same contents, keep every other leaf
unchanged, and preserve the nesting structure exactly. -/
def specConverted : PyValue → PyValue
  | PyValue.deviceArray i => PyValue.npArray i
  | PyValue.tup xs => PyValue.tup (specConvertedElems xs)
  | PyValue.list xs => PyValue.list (specConvertedElems xs)
  | PyValue.dict kvs => PyValue.dict (specConvertedEntries kvs)
  | PyValue.str s => PyValue.str s
  | PyValue.float i => PyValue.float i
  | PyValue.int n => PyValue.int n
  | PyValue.npArray i => PyValue.npArray i
  | PyValue.other i => PyValue.other i

/-- `specConverted` on the members of a tuple or list. -/
def specConvertedElems : List PyValue → List PyValue
  | [] => []
  | x :: xs => specConverted x :: specConvertedElems xs

/-- `specConverted` on the values of a dict. -/
def specConvertedEntries : List (String × PyValue) → List (String × PyValue)
  | [] => []
  | (k, v) :: kvs => (k, specConverted v) :: specConvertedEntries kvs

end

/-- The nesting shape of a value: every leaf collapses to `leaf`, while
tuples, lists and dicts keep their kind, their size and their keys. -/
inductive PyShape where
  | leaf
  | tup (elems : List PyShape)
  | list (elems : List PyShape)
  | dict (entries : List (String × PyShape))
deriving Repr

mutual

/-- The nesting shape of a value. -/
def pyShape : PyValue → PyShape
  | PyValue.tup xs => PyShape.tup (pyShapeElems xs)
  | PyValue.list xs => PyShape.list (pyShapeElems xs)
  | PyValue.dict kvs => PyShape.dict (pyShapeEntries kvs)
  | _ => PyShape.leaf

/-- `pyShape` on the members of a tuple or list. -/
def pyShapeElems : List PyValue → List PyShape
  | [] => []
  | x :: xs => pyShape x :: pyShapeElems xs

/-- `pyShape` on the values of a dict. -/
def pyShapeEntries : List (String × PyValue) → List (String × PyShape)
  | [] => []
  | (k, v) :: kvs => (k, pyShape v) :: pyShapeEntries kvs

end

/-- Whether an `Except` computation succeeded. -/
def exceptOk {ε α : Type} : Except ε α → Bool
  | Except.ok _ => true
  | Except.error _ => false

/-- Complete characterization of the conversion: it returns the spec-described
converted structure when every leaf is recognized, and raises otherwise. -/
theorem conv_eq :
    (∀ v : PyValue,
      recursively_convert_to_numpy v =
        if recognized v then Except.ok (specConverted v)
        else Except.error "Unexpected Python type") ∧
    (∀ kvs : List (String × PyValue),
      convertEntries kvs =
        if recognizedEntries kvs then Except.ok (specConvertedEntries kvs)
        else Except.error "Unexpected Python type") ∧
    (∀ xs : List PyValue,
      convertElems xs =
        if recognizedElems xs then Except.ok (specConvertedElems xs)
        else Except.error "Unexpected Python type") := by
  apply recursively_convert_to_numpy.mutual_induct
  case case1 => intro i; rfl
  case case2 =>
    intro xs ih
    by_cases h : recognizedElems xs <;>
      simp [recursively_convert_to_numpy, recognized, specConverted, ih, h, Except.map]
  case case3 =>
    intro xs ih
    by_cases h : recognizedElems xs <;>
      simp [recursively_convert_to_numpy, recognized, specConverted, ih, h, Except.map]
  case case4 =>
    intro kvs ih
    by_cases h : recognizedEntries kvs <;>
      simp [recursively_convert_to_numpy, recognized, specConverted, ih, h, Except.map]
  case case5 => intro s; rfl
  case case6 => intro i; rfl
  case case7 => intro n; rfl
  case case8 => intro i; rfl
  case case9 => intro i; rfl
  case case10 => rfl
  case case11 =>
    intro x xs ih1 ih2
    cases h1 : recognized x <;> cases h2 : recognizedElems xs <;>
      simp only [convertElems, recognizedElems, specConvertedElems, ih1, ih2, h1, h2] <;>
      rfl
  case case12 => rfl
  case case13 =>
    intro k v kvs ih1 ih2
    cases h1 : recognized v <;> cases h2 : recognizedEntries kvs <;>
      simp only [convertEntries, recognizedEntries, specConvertedEntries, ih1, ih2, h1, h2] <;>
      rfl

/-- The spec-described conversion never changes the nesting shape. -/
theorem specConverted_shape :
    (∀ v : PyValue, pyShape (specConverted v) = pyShape v) ∧
    (∀ kvs : List (String × PyValue),
      pyShapeEntries (specConvertedEntries kvs) = pyShapeEntries kvs) ∧
    (∀ xs : List PyValue, pyShapeElems (specConvertedElems xs) = pyShapeElems xs) := by
  apply specConverted.mutual_induct <;> intros <;>
    first
      | rfl
      | simp_all [specConverted, specConvertedElems, specConvertedEntries, pyShape,
          pyShapeElems, pyShapeEntries]

/-- C6: for every nested structure of tuples, lists and dicts whose leaves are
device arrays, strings, floats or integers, the conversion succeeds and
returns the structure with every device-array leaf replaced by the numpy
array with the same contents and every other leaf unchanged; in particular
the result has exactly the same nesting shape and sizes. -/
theorem conversion_shape_preserving (o : PyValue) (h : recognized o = true) :
    recursively_convert_to_numpy o = Except.ok (specConverted o) ∧
    pyShape (specConverted o) = pyShape o :=
  ⟨by rw [conv_eq.1 o, if_pos h], specConverted_shape.1 o⟩

/-- Witness for C6 on a concrete mixed structure. -/
theorem conversion_shape_preserving_witness :
    recursively_convert_to_numpy
        (PyValue.tup [PyValue.deviceArray 3,
          PyValue.dict [("k", PyValue.int 2)],
          PyValue.list [PyValue.str "s", PyValue.float 1]]) =
      Except.ok
        (PyValue.tup [PyValue.npArray 3,
          PyValue.dict [("k", PyValue.int 2)],
          PyValue.list [PyValue.str "s", PyValue.float 1]]) ∧
    pyShape
        (PyValue.tup [PyValue.npArray 3,
          PyValue.dict [("k", PyValue.int 2)],
          PyValue.list [PyValue.str "s", PyValue.float 1]]) =
      pyShape
        (PyValue.tup [PyValue.deviceArray 3,
          PyValue.dict [("k", PyValue.int 2)],
          PyValue.list [PyValue.str "s", PyValue.float 1]]) :=
  conversion_shape_preserving
    (PyValue.tup [PyValue.deviceArray 3,
      PyValue.dict [("k", PyValue.int 2)],
      PyValue.list [PyValue.str "s", PyValue.float 1]]) rfl

/-- C7: the conversion raises the fatal error exactly when the structure
contains a leaf whose type is not one of the recognized ones (device array,
tuple, list, dict, string, float, integer); it succeeds on every other
input. -/
theorem conversion_error_iff (o : PyValue) :
    exceptOk (recursively_convert_to_numpy o) = recognized o := by
  rw [conv_eq.1 o]
  by_cases h : recognized o <;> simp [h, exceptOk]

/-- The expected-failure set for tests that fail due to incomplete torch-mlir
lowering support (torchscript_e2e_main.py lines 37-41). -/
def COMMON_TORCH_MLIR_LOWERING_XFAIL_SET : List String :=
  ["MobilenetV3Module_basic",
    "QuantizedMLP_basic",
    "TableBatchEmbeddingModule_basic"]

/-- The expected-failure set for tests that fail due to incomplete support for
RNG (torchscript_e2e_main.py lines 44-53). -/
def COMMON_RNG_XFAIL_SET : List String :=
  ["DropoutTrainModule_basic",
    "UniformModule_basic",
    "UniformStaticModule_basic",
    "BernoulliModule_basic",
    "BernoulliZerosModule_basic",
    "BernoulliOnesModule_basic",
    "BernoulliFloatModule_basic",
    "BernoulliTensorModule_basic"]

/-- The expected-failure set of the dylib backend (line 54). -/
def DYLIB_XFAIL_SET : List String :=
  COMMON_TORCH_MLIR_LOWERING_XFAIL_SET ++ COMMON_RNG_XFAIL_SET

/-- The expected-failure set of the vmvx backend (line 55). -/
def VMVX_XFAIL_SET : List String :=
  COMMON_TORCH_MLIR_LOWERING_XFAIL_SET ++ COMMON_RNG_XFAIL_SET

/-- Modelled from the spec: `run_tests` is imported from the external
`torch_mlir_e2e_test` library (it is not part of this repository's sources);
per the spec it executes each selected test against the configured backend and
collects a pass/fail outcome per test.  Tests are identified by their unique
name and the per-test outcome is abstracted by the `outcome` function. -/
def run_tests (tests : List String) (outcome : String → Bool) : List (String × Bool) :=
  tests.map fun t => (t, outcome t)

/-- Modelled from the spec: `report_results` is imported from the external
`torch_mlir_e2e_test` library (it is not part of this repository's sources);
per the spec it prints a report and returns whether at least one unexpected
failure occurred, a failure being expected exactly when the test's unique name
is present in the expected-failure set. -/
def report_results (results : List (String × Bool)) (xfail_set : List String) : Bool :=
  results.any fun r => !r.2 && !(decide (r.1 ∈ xfail_set))

/-- Embedding of `main` (torchscript_e2e_main.py lines 146-171).  The test
registry is the list of the unique names of the registered tests, in
registration order; the regular-expression prefix match `re.match(args.filter,
test.unique_name)` is abstracted as the predicate `filter_match`.  The result
is the process exit status: 1 when the filter selects no test (after printing
the available names) and otherwise 1 or 0 as reported by `report_results`. -/
def e2e_main (filter_match : String → Bool) (registry : List String)
    (xfail_set : List String) (outcome : String → Bool) : Nat :=
  let tests := registry.filter filter_match
  if tests.length = 0 then 1
  else if report_results (run_tests tests outcome) xfail_set then 1 else 0

/-- `report_results` flags exactly the runs with a failing test whose name is
outside the expected-failure set. -/
theorem report_results_iff (tests : List String) (xfail_set : List String)
    (outcome : String → Bool) :
    report_results (run_tests tests outcome) xfail_set = true ↔
      ∃ t ∈ tests, outcome t = false ∧ t ∉ xfail_set := by
  unfold report_results run_tests
  simp [List.any_eq_true]

/-- C8: the test driver exits with status 1 exactly when the name filter
selects no registered test or some selected test fails while its name is
outside the expected-failure set; in particular, when the only selected test
fails but is in the expected-failure set, the driver exits with status 0. -/
theorem e2e_exit_status (filter_match : String → Bool) (registry xfail_set : List String)
    (outcome : String → Bool) :
    (e2e_main filter_match registry xfail_set outcome = 1 ↔
      registry.filter filter_match = [] ∨
        ∃ t ∈ registry.filter filter_match, outcome t = false ∧ t ∉ xfail_set) ∧
    (∀ t : String, registry.filter filter_match = [t] → outcome t = false →
      t ∈ xfail_set → e2e_main filter_match registry xfail_set outcome = 0) := by
  constructor
  · unfold e2e_main
    cases hfil : registry.filter filter_match with
    | nil => simp [hfil]
    | cons t ts =>
      simp only [hfil, List.length_cons]
      rw [if_neg (by omega)]
      by_cases hrep : report_results (run_tests (t :: ts) outcome) xfail_set = true
      · rw [if_pos hrep]
        exact iff_of_true rfl (Or.inr ((report_results_iff (t :: ts) xfail_set outcome).mp hrep))
      · rw [if_neg hrep]
        constructor
        · intro h; exact absurd h (by decide)
        · intro h
          rcases h with h | h
          · exact absurd h (by simp)
          · exact absurd ((report_results_iff _ _ _).mpr h) hrep
  · intro t hfil hout hxf
    unfold e2e_main
    rw [hfil]
    have hrep : report_results (run_tests [t] outcome) xfail_set = false := by
      unfold report_results run_tests
      simp [hout, hxf]
    simp [hrep]

/-- Witness for C8: a single selected test that fails but is in the dylib
expected-failure set yields exit status 0. -/
theorem e2e_exit_status_witness :
    e2e_main (fun _ => true) ["DropoutTrainModule_basic"] DYLIB_XFAIL_SET
      (fun _ => false) = 0 :=
  (e2e_exit_status (fun _ => true) ["DropoutTrainModule_basic"] DYLIB_XFAIL_SET
    (fun _ => false)).2 "DropoutTrainModule_basic" rfl rfl (by decide)

/-- The observable termination of the benchmark driver process. -/
inductive ExitOutcome where
  | status (code : Nat)
  | uncaught
deriving DecidableEq, Repr

/-- Embedding of the exit behavior of `main` and its inner `compiler` callback
(torchbench.py lines 83-112).  `model_found` is whether
`load_model_by_name` found the named model (if not, `main` prints a message
and returns, so the interpreter exits with status 0); `compile_raises` is
whether some invocation of `torch_mlir_compiler` during the benchmark run
raises an exception.  With `--exit-on-error` the exception is caught, printed
and turned into `sys.exit(1)`; without it the exception propagates out of
`main` uncaught, which is not a controlled exit status (`ExitOutcome.uncaught`);
a run with no failure falls off the end of the script, exit status 0. -/
def torchbench_main (model_found exit_on_error compile_raises : Bool) : ExitOutcome :=
  if !model_found then ExitOutcome.status 0
  else if compile_raises then
    if exit_on_error then ExitOutcome.status 1 else ExitOutcome.uncaught
  else ExitOutcome.status 0

/-- C9 counterexample: when the named model is not found, the driver prints a
message and returns normally, so the process exits with status 0 — not with
status 1 as the claim states. -/
theorem torchbench_missing_model_cex :
    torchbench_main false false false = ExitOutcome.status 0 ∧
    torchbench_main false false false ≠ ExitOutcome.status 1 :=
  ⟨rfl, by decide⟩

/-- C9 amended: the benchmark driver exits with the controlled status 1
exactly when the exit-on-error flag is set and compilation raises; when the
named model is not found it prints a message and exits with status 0; when
compilation raises without exit-on-error the exception propagates uncaught
instead of producing a controlled status; every remaining run exits with
status 0. -/
theorem torchbench_exit_status (mf eo cr : Bool) :
    (torchbench_main mf eo cr = ExitOutcome.status 1 ↔
      mf = true ∧ eo = true ∧ cr = true) ∧
    (mf = false → torchbench_main mf eo cr = ExitOutcome.status 0) ∧
    (mf = true → cr = true → eo = false → torchbench_main mf eo cr = ExitOutcome.uncaught) ∧
    (mf = true → cr = false → torchbench_main mf eo cr = ExitOutcome.status 0) := by
  cases mf <;> cases eo <;> cases cr <;> exact (by decide)

/-- Witness for the amended C9 at three concrete flag combinations. -/
theorem torchbench_exit_status_witness :
    torchbench_main true true true = ExitOutcome.status 1 ∧
    torchbench_main false true true = ExitOutcome.status 0 ∧
    torchbench_main true false true = ExitOutcome.uncaught :=
  ⟨(torchbench_exit_status true true true).1.mpr ⟨rfl, rfl, rfl⟩,
    (torchbench_exit_status false true true).2.1 rfl,
    (torchbench_exit_status true false true).2.2.1 rfl rfl rfl⟩

end IreeTorch
